import Mathlib

/-!
Verification development for the swarm-blockstore repository: a shallow
embedding of the bee HTTP client (`bee/client.go`), the tar archive
assembler (`tar/tar.go`) and the put/get adapter
(`putergetter/putgetter.go`), together with theorems settling the
specification's claims.

Go byte slices are modelled as Lean `String`s (a Go `string` is exactly a
byte sequence, and the code converts between `[]byte` and `string`
freely).  The HTTP transport, Go's `http.NewRequest` URL validation and
the JSON decoder are external to the repository; they are modelled as an
oracle (`World`) supplying, for each issued request, either a transport
error or a response whose body carries both its raw bytes and the
outcome of decoding those bytes as a JSON object.
-/

namespace SwarmBS

/-- Bytes are modelled as strings (byte-for-byte, as in Go). -/
abbrev Bytes := String

/-- Model of `swarm.Address`: a byte string (the content hash). -/
structure Address where
  bytes : Bytes
deriving DecidableEq, Repr

/-- Model of `swarm.ZeroAddress` (`NewAddress(nil)`): empty backing bytes. -/
def ZeroAddress : Address := ⟨""⟩

/-- Model of `swarm.Address.IsZero`: equality with the zero address. -/
def Address.IsZero (a : Address) : Bool := a == ZeroAddress

/-- Model of `swarm.Address.IsEmpty`: zero-length backing bytes. -/
def Address.IsEmpty (a : Address) : Bool := a.bytes.length == 0

/-- One hex digit (lower case), as produced by Go's hex encoder. -/
def hexDigitChar (n : Nat) : Char :=
  if n < 10 then Char.ofNat (48 + n) else Char.ofNat (87 + n)

/-- Hex encoding of one byte. -/
def byteToHex (n : Nat) : String :=
  String.mk [hexDigitChar ((n % 256) / 16), hexDigitChar (n % 16)]

/-- Model of `swarm.Address.String()`: hex encoding of the address bytes. -/
def Address.toHexString (a : Address) : String :=
  String.join (a.bytes.data.map fun c => byteToHex c.toNat)

/-- Model of `swarm.Chunk` (`swarm.NewChunk(address, data)`): an address
paired with byte data. -/
structure Chunk where
  address : Address
  data : Bytes
deriving DecidableEq, Repr

/-- Model of an outgoing `http.Request`: method, full URL, headers
(ordered key/value list), body bytes, and the `req.Close` flag. -/
structure HttpRequest where
  method : String
  url : String
  headers : List (String × String)
  body : Bytes
  close : Bool
deriving DecidableEq, Repr

/-- Model of Go's `req.Header.Set(k, v)`: replaces any existing value for
the key, otherwise appends the pair. -/
def setHeader (hs : List (String × String)) (k v : String) : List (String × String) :=
  if hs.any (fun p => p.1 == k) then
    hs.map (fun p => if p.1 == k then (k, v) else p)
  else
    hs ++ [(k, v)]

/-- Header lookup (`req.Header.Get`): the value set for the key, if any. -/
def getHeader (hs : List (String × String)) (k : String) : Option String :=
  (hs.find? (fun p => p.1 == k)).map (fun p => p.2)

/-- Outcome of decoding a response body as a JSON object, as seen through
Go's `json.Unmarshal` into the repository's response structs
(`beeError`, `chunkAddressResponse`, `bytesPostResponse`,
`tagPostResponse`).  A JSON object yields every field, with Go zero
values for fields the object does not carry. -/
structure JsonView where
  code : Int
  message : String
  reference : Address
  uid : Nat
  total : Int
  processed : Int
  synced : Int
deriving DecidableEq, Repr

deriving instance DecidableEq for Except

/-- A response body as consumed by the client: `io.ReadAll` either fails
with an error, or yields raw bytes together with the outcome of JSON
decoding those bytes (`Except.error` carries the decoder's message). -/
inductive BodyRead where
  | readErr (msg : String)
  | bytes (raw : Bytes) (json : Except String JsonView)
deriving DecidableEq, Repr

/-- Result of dispatching a request (`s.Do(req)`): a transport error or a
response with a status code and a body. -/
inductive SendResult where
  | transportErr (msg : String)
  | response (status : Nat) (body : BodyRead)
deriving DecidableEq, Repr

/-- The external world an operation runs against: `mkReqErr url` models
`http.NewRequest` failing on a malformed URL (`none` = construction
succeeds), and `send` models the transport round trip `s.Do`. -/
structure World where
  mkReqErr : String → Option String
  send : HttpRequest → SendResult

/-- Model of the `bee.Client` struct: base URL, gateway-proxy flag, and
the construction-time stamp / redundancy / pin defaults. -/
structure Client where
  url : String
  isProxy : Bool
  stamp : String
  redundancy : String
  pin : Bool
deriving DecidableEq, Repr

/-- Model of `NewBeeClient(apiUrl, opts...)` with the three options
`WithPinning`, `WithStamp`, `WithRedundancy` applied; `isProxy` starts
false. -/
def NewBeeClient (apiUrl : String) (pin : Bool) (stamp redundancy : String) : Client :=
  { url := apiUrl, isProxy := false, stamp := stamp, redundancy := redundancy, pin := pin }

/-- URL path constants from `client.go`. -/
def chunkUploadDownloadUrl : String := "/chunks"

def bytesUploadDownloadUrl : String := "/bytes"

def bzzUrl : String := "/bzz"

def tagsUrl : String := "/tags"

def pinsUrl : String := "/pins/"

def feedsUrl : String := "/feeds/"

/-- Header name constants from `client.go`. -/
def swarmPinHeader : String := "Swarm-Pin"

def swarmEncryptHeader : String := "Swarm-Encrypt"

def SwarmPostageBatchId : String := "Swarm-Postage-Batch-Id"

def swarmDeferredUploadHeader : String := "Swarm-Deferred-Upload"

def swarmErasureCodingHeader : String := "Swarm-Redundancy-Level"

def swarmTagHeader : String := "Swarm-Tag"

def contentTypeHeader : String := "Content-Type"

/-- Model of `socResource(owner, id, sig)`. -/
def socResource (owner id sig : String) : String :=
  "/soc/" ++ owner ++ "/" ++ id ++ "?sig=" ++ sig

/-- The request `Client.UploadChunk` sends: POST to `url + "/chunks"`
with the chunk data as body, the stamp and redundancy defaults applied
when the per-call values are empty, and the `Swarm-Pin` header present
(value `"true"`) exactly when the effective pin flag is set (`if s.pin
then pin = s.pin`, then `if pin` set the header). -/
def uploadChunkReq (s : Client) (tag : Nat) (ch : Chunk) (stamp redundancyLevel : String)
    (pin : Bool) : HttpRequest :=
  let stamp := if stamp == "" then s.stamp else stamp
  let redundancyLevel := if redundancyLevel == "" then s.redundancy else redundancyLevel
  let hs := setHeader [] contentTypeHeader "application/octet-stream"
  let hs := setHeader hs SwarmPostageBatchId stamp
  let hs := setHeader hs swarmDeferredUploadHeader "true"
  let hs := setHeader hs swarmErasureCodingHeader redundancyLevel
  let hs := setHeader hs swarmTagHeader (toString tag)
  let pin := if s.pin then s.pin else pin
  let hs := if pin then setHeader hs swarmPinHeader "true" else hs
  { method := "POST", url := s.url ++ chunkUploadDownloadUrl, headers := hs,
    body := ch.data, close := true }

/-- Model of `Client.UploadChunk`: builds the request (the redundancy
level of the request's local processing context is forced to NONE, which
has no observable effect in this model), dispatches it, reads the body,
and decodes the response: non-201 yields the decoded `beeError` message
or the raw body verbatim; 201 yields the decoded `reference`.  Returns
the result together with the list of requests actually dispatched. -/
def Client.UploadChunk (s : Client) (w : World) (tag : Nat) (ch : Chunk)
    (stamp redundancyLevel : String) (pin : Bool) :
    Except String Address × List HttpRequest :=
  match w.mkReqErr (s.url ++ chunkUploadDownloadUrl) with
  | some e => (.error e, [])
  | none =>
    let req := uploadChunkReq s tag ch stamp redundancyLevel pin
    match w.send req with
    | .transportErr e => (.error e, [req])
    | .response status body =>
      match body with
      | .readErr _ => (.error "error uploading data", [req])
      | .bytes raw json =>
        if status ≠ 201 then
          match json with
          | .error _ => (.error raw, [req])
          | .ok v => (.error v.message, [req])
        else
          match json with
          | .error e => (.error e, [req])
          | .ok v => (.ok v.reference, [req])

/-- Model of `Client.DownloadChunk`: GET `url + "/chunks/" + address`;
a transport error (which is how a context cancelled before the response
arrives surfaces) is returned verbatim; a non-200 status or a body-read
failure both yield the fixed message `"error downloading data"`; on
success the result is `swarm.NewChunk(address, body bytes)`. -/
def Client.DownloadChunk (s : Client) (w : World) (address : Address) :
    Except String Chunk × List HttpRequest :=
  let fullUrl := s.url ++ (chunkUploadDownloadUrl ++ "/" ++ address.toHexString)
  match w.mkReqErr fullUrl with
  | some e => (.error e, [])
  | none =>
    let req : HttpRequest :=
      { method := "GET", url := fullUrl, headers := [], body := "", close := true }
    match w.send req with
    | .transportErr e => (.error e, [req])
    | .response status body =>
      if status ≠ 200 then (.error "error downloading data", [req])
      else
        match body with
        | .readErr _ => (.error "error downloading data", [req])
        | .bytes raw _ => (.ok ⟨address, raw⟩, [req])

/-- The request `Client.UploadSOC` sends: POST to the SOC resource with
the stamp and redundancy defaults applied when per-call values are
empty, and the `Swarm-Pin: true` header exactly when the effective pin
flag (`if s.pin then pin = s.pin`, then `if pin`) is set. -/
def uploadSOCReq (s : Client) (owner id sig stamp redundancyLevel : String) (pin : Bool)
    (data : Bytes) : HttpRequest :=
  let stamp := if stamp == "" then s.stamp else stamp
  let redundancyLevel := if redundancyLevel == "" then s.redundancy else redundancyLevel
  let hs := setHeader [] SwarmPostageBatchId stamp
  let hs := setHeader hs contentTypeHeader "application/octet-stream"
  let hs := setHeader hs swarmDeferredUploadHeader "true"
  let hs := setHeader hs swarmErasureCodingHeader redundancyLevel
  let pin := if s.pin then s.pin else pin
  let hs := if pin then setHeader hs swarmPinHeader "true" else hs
  { method := "POST", url := s.url ++ socResource owner id sig, headers := hs,
    body := data, close := true }

/-- The request `Client.UploadBlob` sends: POST to `url + "/bytes"`.
The `Swarm-Pin` header is always set, to `"true"` or `"false"` straight
from the per-call flag (`fmt.Sprintf("%t", pin)`); the construction-time
pin default is not consulted.  `Swarm-Tag` is set only when `tag > 0`. -/
def uploadBlobReq (s : Client) (tag : Nat) (stamp redundancyLevel : String)
    (pin encrypt : Bool) (data : Bytes) : HttpRequest :=
  let stamp := if stamp == "" then s.stamp else stamp
  let redundancyLevel := if redundancyLevel == "" then s.redundancy else redundancyLevel
  let hs := setHeader [] swarmPinHeader (if pin then "true" else "false")
  let hs := setHeader hs swarmEncryptHeader (if encrypt then "true" else "false")
  let hs := setHeader hs contentTypeHeader "application/octet-stream"
  let hs := setHeader hs swarmErasureCodingHeader redundancyLevel
  let hs := if tag > 0 then setHeader hs swarmTagHeader (toString tag) else hs
  let hs := setHeader hs SwarmPostageBatchId stamp
  let hs := setHeader hs swarmDeferredUploadHeader "true"
  { method := "POST", url := s.url ++ bytesUploadDownloadUrl, headers := hs,
    body := data, close := true }

/-- Result of `Client.DownloadBlob`: the (unread) response body stream on
success, the status code, and the error if any. -/
structure DownloadBlobResult where
  body : Option BodyRead
  status : Nat
  err : Option String
deriving DecidableEq, Repr

/-- Model of `Client.DownloadBlob`: GET `url + "/bytes/" + address`.  A
request-construction failure or a transport failure returns status 404
(`http.StatusNotFound`) with the underlying error; a non-200 response is
decoded as a `beeError` (raw body verbatim as fallback, and
`"error downloading blob"` if the body read fails) and reported with the
server's status code; a 200 response returns its body stream unread. -/
def Client.DownloadBlob (s : Client) (w : World) (address : Address) :
    DownloadBlobResult × List HttpRequest :=
  let fullUrl := s.url ++ bytesUploadDownloadUrl ++ "/" ++ address.toHexString
  match w.mkReqErr fullUrl with
  | some e => (⟨none, 404, some e⟩, [])
  | none =>
    let req : HttpRequest :=
      { method := "GET", url := fullUrl, headers := [], body := "", close := true }
    match w.send req with
    | .transportErr e => (⟨none, 404, some e⟩, [req])
    | .response status body =>
      if status ≠ 200 then
        match body with
        | .readErr _ => (⟨none, status, some "error downloading blob"⟩, [req])
        | .bytes raw json =>
          match json with
          | .error _ => (⟨none, status, some raw⟩, [req])
          | .ok v => (⟨none, status, some v.message⟩, [req])
      else
        (⟨some body, status, none⟩, [req])

/-- The request `Client.UploadFileBzz` sends: POST to
`url + "/bzz?name=" + fileName`; `Swarm-Pin` is always set straight from
the per-call flag (`fmt.Sprintf("%t", pin)`). -/
def uploadFileBzzReq (s : Client) (data : Bytes) (fileName stamp redundancyLevel : String)
    (pin : Bool) : HttpRequest :=
  let stamp := if stamp == "" then s.stamp else stamp
  let redundancyLevel := if redundancyLevel == "" then s.redundancy else redundancyLevel
  let hs := setHeader [] swarmPinHeader (if pin then "true" else "false")
  let hs := setHeader hs SwarmPostageBatchId stamp
  let hs := setHeader hs contentTypeHeader "application/json"
  let hs := setHeader hs swarmErasureCodingHeader redundancyLevel
  { method := "POST", url := s.url ++ bzzUrl ++ "?name=" ++ fileName, headers := hs,
    body := data, close := true }

/-- The request `Client.UploadBzz` (archive upload) sends: POST to
`url + "/bzz"` with the tar stream's buffer as body; `Swarm-Pin` is
always set straight from the per-call flag. -/
def uploadBzzReq (s : Client) (data : Bytes) (stamp redundancyLevel : String)
    (pin : Bool) : HttpRequest :=
  let stamp := if stamp == "" then s.stamp else stamp
  let redundancyLevel := if redundancyLevel == "" then s.redundancy else redundancyLevel
  let hs := setHeader [] swarmPinHeader (if pin then "true" else "false")
  let hs := setHeader hs SwarmPostageBatchId stamp
  let hs := setHeader hs "Content-Type" "application/x-tar"
  let hs := setHeader hs "Swarm-Collection" "true"
  let hs := setHeader hs swarmErasureCodingHeader redundancyLevel
  { method := "POST", url := s.url ++ bzzUrl, headers := hs, body := data, close := true }

/-- Model of `Client.DeleteReference` (unpin): DELETE
`url + "/pins/" + address`.  A 200 or 404 status both return success
(the body is drained and discarded); any other status returns the error
`"failed to unpin reference : " ++ body` (or the body-read error when
reading fails).  The result is `none` on success, `some err` on
failure. -/
def Client.DeleteReference (s : Client) (w : World) (address : Address) :
    Option String × List HttpRequest :=
  let fullUrl := s.url ++ pinsUrl ++ address.toHexString
  match w.mkReqErr fullUrl with
  | some e => (some e, [])
  | none =>
    let req : HttpRequest :=
      { method := "DELETE", url := fullUrl, headers := [], body := "", close := true }
    match w.send req with
    | .transportErr e => (some e, [req])
    | .response status body =>
      if status ≠ 200 ∧ status ≠ 404 then
        match body with
        | .readErr e => (some e, [req])
        | .bytes raw _ => (some ("failed to unpin reference : " ++ raw), [req])
      else
        (none, [req])

/-- Body of the `tagPostRequest` JSON (`json.Marshal` of the struct). -/
def tagPostBody (addrString : String) : Bytes :=
  "\x7b\"address\":\"" ++ addrString ++ "\"\x7d"

/-- Model of `Client.CreateTag`: on a gateway-proxy endpoint it returns
UID 0 with no error and dispatches nothing.  Otherwise: POST
`url + "/tags"` with an optional `{address}` body (present only when the
address is neither zero nor empty); a body-read failure yields
`"error create tag"`; a status other than 200/201 yields the decoded
`beeError` message or the raw body verbatim; success decodes the tag
`uid` (decode failure yields `"error unmarshalling response"`). -/
def Client.CreateTag (s : Client) (w : World) (address : Address) :
    Except String Nat × List HttpRequest :=
  if s.isProxy then (.ok 0, [])
  else
    let fullUrl := s.url ++ tagsUrl
    let data : Bytes :=
      if ¬address.IsZero ∧ ¬address.IsEmpty then tagPostBody address.toHexString else ""
    match w.mkReqErr fullUrl with
    | some e => (.error e, [])
    | none =>
      let req : HttpRequest :=
        { method := "POST", url := fullUrl, headers := [], body := data, close := true }
      match w.send req with
      | .transportErr e => (.error e, [req])
      | .response status body =>
        match body with
        | .readErr _ => (.error "error create tag", [req])
        | .bytes raw json =>
          if status ≠ 200 ∧ status ≠ 201 then
            match json with
            | .error _ => (.error raw, [req])
            | .ok v => (.error v.message, [req])
          else
            match json with
            | .error _ => (.error "error unmarshalling response", [req])
            | .ok v => (.ok v.uid, [req])

/-- Model of `Client.GetTag`: on a gateway-proxy endpoint it returns
`(0, 0, 0)` with no error and dispatches nothing.  Otherwise: GET
`url + "/tags/" + uid`; a body-read failure yields
`"error getting tag"`; a status other than 200/201 yields the decoded
`beeError` message or the raw body verbatim; success decodes
`(total, processed, synced)` (decode failure yields
`"error unmarshalling response"`). -/
def Client.GetTag (s : Client) (w : World) (tag : Nat) :
    Except String (Int × Int × Int) × List HttpRequest :=
  if s.isProxy then (.ok (0, 0, 0), [])
  else
    let fullUrl := s.url ++ tagsUrl ++ "/" ++ toString tag
    match w.mkReqErr fullUrl with
    | some e => (.error e, [])
    | none =>
      let req : HttpRequest :=
        { method := "GET", url := fullUrl, headers := [], body := "", close := true }
      match w.send req with
      | .transportErr e => (.error e, [req])
      | .response status body =>
        match body with
        | .readErr _ => (.error "error getting tag", [req])
        | .bytes raw json =>
          if status ≠ 200 ∧ status ≠ 201 then
            match json with
            | .error _ => (.error raw, [req])
            | .ok v => (.error v.message, [req])
          else
            match json with
            | .error _ => (.error "error unmarshalling response", [req])
            | .ok v => (.ok (v.total, v.processed, v.synced), [req])

/-- The request `Client.CreateFeedManifest` sends: POST to
`url + "/feeds/" + owner + "/" + topic` with the stamp default applied,
and the `Swarm-Pin: true` header exactly when the effective pin flag
(`if s.pin then pin = s.pin`, then `if pin`) is set. -/
def createFeedManifestReq (s : Client) (owner topic stamp : String) (pin : Bool) :
    HttpRequest :=
  let stamp := if stamp == "" then s.stamp else stamp
  let hs := setHeader [] SwarmPostageBatchId stamp
  let pin := if s.pin then s.pin else pin
  let hs := if pin then setHeader hs swarmPinHeader "true" else hs
  { method := "POST", url := s.url ++ feedsUrl ++ owner ++ "/" ++ topic, headers := hs,
    body := "", close := true }

/-- Model of `putergetter.PutGetter`: the bound tag, stamp batch, pin
flag and redundancy level (the wrapped `api` client is passed
explicitly to each operation). -/
structure PutGetter where
  tag : Nat
  batch : String
  pin : Bool
  redundancyLevel : String
deriving DecidableEq, Repr

/-- Model of `putergetter.NewPutGetter`: creates a tag for the zero
address via the client; construction fails when tag creation fails. -/
def NewPutGetter (s : Client) (w : World) (batch redundancyLevel : String) (pin : Bool) :
    Except String PutGetter :=
  match (Client.CreateTag s w ZeroAddress).1 with
  | .error e => .error e
  | .ok tag => .ok { tag := tag, batch := batch, pin := pin,
                     redundancyLevel := redundancyLevel }

/-- Model of `PutGetter.Get`: delegates to `Client.DownloadChunk` (the
receiver's bound configuration is unused on reads). -/
def PutGetter.Get (_p : PutGetter) (s : Client) (w : World) (address : Address) :
    Except String Chunk :=
  (Client.DownloadChunk s w address).1

/-- Model of `PutGetter.Put`: delegates to `Client.UploadChunk` with the
bound tag, batch, redundancy level and pin; discards the returned
address, propagating only the error (`none` = success). -/
def PutGetter.Put (p : PutGetter) (s : Client) (w : World) (ch : Chunk) : Option String :=
  match (Client.UploadChunk s w p.tag ch p.batch p.redundancyLevel p.pin).1 with
  | .error e => some e
  | .ok _ => none

/-!  Tar archive assembler (`tar/tar.go`), backed by Go's `archive/tar`
writer.  The writer is modelled at the level of header/data events: the
sticky error `tw.err`, the number of payload bytes still owed to the
current entry (`nb`, the regular-file writer's remaining count), and the
sequence of events written so far. -/

/-- Error messages of Go's `archive/tar` package. -/
def errWriteAfterClose : String := "archive/tar: write after close"

def errWriteTooLong : String := "archive/tar: write too long"

def errMissedWriting (nb : Int) : String :=
  "archive/tar: missed writing " ++ toString nb ++ " bytes"

/-- One event written into the archive: an entry header or payload
bytes. -/
inductive TarEvent where
  | header (path : String) (size : Int)
  | payload (bytes : Bytes)
deriving DecidableEq, Repr

/-- Model of the repository's `tar.Stream` (a `tar.Writer` over a
`bytes.Buffer`): the events written, the writer's sticky error, and the
bytes still owed to the current entry. -/
structure Stream where
  events : List TarEvent
  err : Option String
  nb : Int
deriving DecidableEq, Repr

/-- Model of `tar.NewStream`: fresh writer, no error, no current
entry. -/
def NewStream : Stream := { events := [], err := none, nb := 0 }

/-- Model of `tar.Writer.Flush` as called by `WriteHeader` and `Close`:
fails with the sticky error if set, and returns (without making sticky)
the missed-writing error when the previous entry is short of its
declared size. -/
def Stream.flush (ts : Stream) : Stream × Option String :=
  match ts.err with
  | some e => (ts, some e)
  | none =>
    if ts.nb > 0 then (ts, some (errMissedWriting ts.nb))
    else (ts, none)

/-- Model of `Stream.BeginFile` (`tar.Writer.WriteHeader` with name =
path, size = item size): flushes the previous entry, then records the
header and opens an entry owing `size` bytes. -/
def Stream.BeginFile (ts : Stream) (path : String) (size : Int) : Stream × Option String :=
  match ts.flush with
  | (ts', some e) => (ts', some e)
  | (ts', none) =>
    ({ ts' with events := ts'.events ++ [.header path size], nb := size }, none)

/-- Model of `tar.Writer.Write` (via the regular-file writer): fails with
the sticky error if set; otherwise writes at most the owed byte count,
returning `errWriteTooLong` (not sticky) when the data overflows the
current entry. -/
def Stream.write (ts : Stream) (data : Bytes) : Stream × Option String :=
  match ts.err with
  | some e => (ts, some e)
  | none =>
    let n : Int := data.length
    if n > ts.nb then
      let keep := data.take ts.nb.toNat
      ({ ts with events := ts.events ++ [.payload keep], nb := 0 }, some errWriteTooLong)
    else
      ({ ts with events := ts.events ++ [.payload data], nb := ts.nb - n }, none)

/-- Model of `Stream.AppendFile`: writes payload bytes into the current
entry. -/
def Stream.AppendFile (ts : Stream) (data : Bytes) : Stream × Option String :=
  ts.write data

/-- Model of `Stream.EndFile`: a no-op returning nil. -/
def Stream.EndFile (ts : Stream) : Stream × Option String := (ts, none)

/-- Model of `Stream.End` (`tar.Writer.Close`): idempotent after close;
otherwise flushes (the missed-writing check), then marks the writer
closed with the sticky `errWriteAfterClose`. -/
def Stream.End (ts : Stream) : Stream × Option String :=
  if ts.err == some errWriteAfterClose then (ts, none)
  else match ts.err with
  | some e => (ts, some e)
  | none =>
    match ts.flush with
    | (ts', some e) => ({ ts' with err := some errWriteAfterClose }, some e)
    | (ts', none) => ({ ts' with err := some errWriteAfterClose }, none)

/-- Model of an `io.ReadCloser` carrying a collection item's contents. -/
structure ReadCloser where
  contents : Bytes
deriving DecidableEq, Repr

/-- Model of `tar.CollectionItem`: path, declared size, and the optional
byte stream (`none` models a nil `io.ReadCloser`). -/
structure CollectionItem where
  path : String
  size : Int
  file : Option ReadCloser
deriving DecidableEq, Repr

/-- The copy loop of `io.CopyBuffer(ts.GetWriter(), src, make([]byte,
32*1024))`: repeatedly writes chunks of at most 32768 bytes into the tar
writer, stopping at the first write error.  `fuel` bounds the number of
iterations so the recursion is structural; `copyFrom` supplies enough
fuel for the whole source. -/
def Stream.copyLoop (ts : Stream) (fuel : Nat) (data : List Char) : Stream × Option String :=
  match fuel with
  | 0 => (ts, none)
  | fuel + 1 =>
    if data.length = 0 then (ts, none)
    else
      match ts.write (String.mk (data.take 32768)) with
      | (ts', some e) => (ts', some e)
      | (ts', none) => ts'.copyLoop fuel (data.drop 32768)

/-- Model of `io.CopyBuffer` draining a whole source stream into the tar
writer. -/
def Stream.copyFrom (ts : Stream) (data : List Char) : Stream × Option String :=
  ts.copyLoop (data.length + 1) data

/-- Result of `Stream.WriteItem`: the stream state afterwards, the error
if any, and whether the item's byte stream was closed (the code's
`defer item.File.Close()` fires only on the path where the file is
non-nil and the header write has already succeeded). -/
structure WriteItemResult where
  stream : Stream
  err : Option String
  fileClosed : Bool
deriving DecidableEq, Repr

/-- Model of `Stream.WriteItem`: `BeginFile`, then — only if the header
write succeeded — either an error for a nil stream, or a deferred close
around copying the stream into the writer followed by `EndFile`. -/
def Stream.WriteItem (ts : Stream) (item : CollectionItem) : WriteItemResult :=
  match ts.BeginFile item.path item.size with
  | (ts1, some e) => { stream := ts1, err := some e, fileClosed := false }
  | (ts1, none) =>
    match item.file with
    | none => { stream := ts1, err := some "invalid collection item", fileClosed := false }
    | some f =>
      match ts1.copyFrom f.contents.data with
      | (ts2, some e) => { stream := ts2, err := some e, fileClosed := true }
      | (ts2, none) =>
        match ts2.EndFile with
        | (ts3, e) => { stream := ts3, err := e, fileClosed := true }

/-- Looking up the key just set yields the value just set. -/
theorem getHeader_setHeader_self (hs : List (String × String)) (k v : String) :
    getHeader (setHeader hs k v) k = some v := by
  induction hs with
  | nil => simp [setHeader, getHeader]
  | cons p t ih =>
    by_cases h : p.1 = k
    · simp [setHeader, getHeader, h]
    · by_cases ht : t.any (fun q => q.1 == k)
      · simp [setHeader, ht, h, getHeader] at ih ⊢
        exact ih
      · simp [setHeader, ht, h, getHeader] at ih ⊢
        exact ih

/-- Looking up any key in an empty header list yields nothing. -/
theorem getHeader_nil (k : String) : getHeader [] k = none := rfl

/-- Replacing the value for key `k` does not disturb `find?` for a
different key. -/
theorem find_replace_other (t : List (String × String)) (k v k' : String)
    (hne : k' ≠ k) :
    (t.map (fun p => if p.1 == k then (k, v) else p)).find? (fun p => p.1 == k') =
      t.find? (fun p => p.1 == k') := by
  induction t with
  | nil => rfl
  | cons p t ih =>
    by_cases h : p.1 = k
    · by_cases h' : p.1 = k'
      · exact absurd (h'.symm.trans h) hne
      · simp [List.find?_cons, h, Ne.symm hne, -List.find?_map]
        simpa using ih
    · by_cases h' : p.1 = k'
      · simp [List.find?_cons, h, h', hne, -List.find?_map]
      · simp [List.find?_cons, h, h', -List.find?_map]
        simpa using ih

/-- Appending an entry for key `k` does not disturb `find?` for a
different key. -/
theorem find_append_other (t : List (String × String)) (k v k' : String)
    (hne : k' ≠ k) :
    (t ++ [(k, v)]).find? (fun p => p.1 == k') = t.find? (fun p => p.1 == k') := by
  induction t with
  | nil => simp [Ne.symm hne]
  | cons p t ih =>
    by_cases h' : p.1 = k'
    · simp [h']
    · simp [h', ih]

/-- Setting one key leaves lookups of any other key unchanged. -/
theorem getHeader_setHeader_ne (hs : List (String × String)) (k v k' : String)
    (hne : k' ≠ k) :
    getHeader (setHeader hs k v) k' = getHeader hs k' := by
  unfold setHeader getHeader
  by_cases ha : hs.any (fun q => q.1 == k)
  · simp only [ha, if_true, find_replace_other hs k v k' hne]
  · simp only [ha, if_false, find_append_other hs k v k' hne, Bool.false_eq_true]

/-- C1: uploading a chunk with tag 7, stamp "stamp1", empty redundancy
and pin false, on a client whose construction-time pin default is false,
sends a POST to `/chunks` whose headers carry `Swarm-Tag: 7` and
`Swarm-Postage-Batch-Id: stamp1` and carry no `Swarm-Pin` header, and a
201 reply whose body decodes to reference `A` makes the call return `A`
with no error. -/
theorem uploadChunk_upload_scenario (s : Client) (w : World) (ch : Chunk) (A : Address)
    (raw : Bytes) (v : JsonView)
    (hpin : s.pin = false)
    (hmk : w.mkReqErr (s.url ++ chunkUploadDownloadUrl) = none)
    (hsend : w.send (uploadChunkReq s 7 ch "stamp1" "" false) =
      .response 201 (.bytes raw (.ok v)))
    (href : v.reference = A) :
    (uploadChunkReq s 7 ch "stamp1" "" false).method = "POST" ∧
    (uploadChunkReq s 7 ch "stamp1" "" false).url = s.url ++ "/chunks" ∧
    getHeader (uploadChunkReq s 7 ch "stamp1" "" false).headers swarmTagHeader = some "7" ∧
    getHeader (uploadChunkReq s 7 ch "stamp1" "" false).headers SwarmPostageBatchId =
      some "stamp1" ∧
    getHeader (uploadChunkReq s 7 ch "stamp1" "" false).headers swarmPinHeader = none ∧
    Client.UploadChunk s w 7 ch "stamp1" "" false =
      (.ok A, [uploadChunkReq s 7 ch "stamp1" "" false]) := by
  refine ⟨rfl, rfl, ?_, ?_, ?_, ?_⟩
  · simp only [uploadChunkReq, hpin, getHeader_setHeader_self, getHeader_setHeader_ne,
      getHeader_nil, swarmTagHeader, swarmErasureCodingHeader,
      swarmDeferredUploadHeader, SwarmPostageBatchId, contentTypeHeader,
      swarmPinHeader, Bool.false_eq_true, if_false, Option.some.injEq]
    decide
  · simp [uploadChunkReq, hpin, getHeader_setHeader_self, getHeader_setHeader_ne,
      getHeader_nil, swarmTagHeader, swarmErasureCodingHeader,
      swarmDeferredUploadHeader, SwarmPostageBatchId, contentTypeHeader,
      swarmPinHeader]
  · simp [uploadChunkReq, hpin, getHeader_setHeader_self, getHeader_setHeader_ne,
      getHeader_nil, swarmTagHeader, swarmErasureCodingHeader,
      swarmDeferredUploadHeader, SwarmPostageBatchId, contentTypeHeader,
      swarmPinHeader]
  · simp [Client.UploadChunk, hmk, hsend, href]

/-- C1 witness: the scenario evaluated at a concrete client, chunk,
address and server. -/
theorem uploadChunk_upload_scenario_witness :
    Client.UploadChunk ⟨"http://h", false, "", "", false⟩
      ⟨fun _ => none,
       fun _ => .response 201 (.bytes "resp" (.ok ⟨0, "", ⟨"A1"⟩, 0, 0, 0, 0⟩))⟩
      7 ⟨⟨"A1"⟩, "chunkdata"⟩ "stamp1" "" false =
      (.ok ⟨"A1"⟩,
       [uploadChunkReq ⟨"http://h", false, "", "", false⟩ 7 ⟨⟨"A1"⟩, "chunkdata"⟩
         "stamp1" "" false]) := by
  exact (uploadChunk_upload_scenario ⟨"http://h", false, "", "", false⟩
    ⟨fun _ => none,
     fun _ => .response 201 (.bytes "resp" (.ok ⟨0, "", ⟨"A1"⟩, 0, 0, 0, 0⟩))⟩
    ⟨⟨"A1"⟩, "chunkdata"⟩ ⟨"A1"⟩ "resp" ⟨0, "", ⟨"A1"⟩, 0, 0, 0, 0⟩
    rfl rfl rfl rfl).2.2.2.2.2

/-- C2 counterexample: on a client whose construction-time pin default is
true, `UploadBlob` with per-call pin false sends `Swarm-Pin: false` —
the construction-time default does not override the false per-call pin
flag, contradicting the claim for `uploadBlob`. -/
theorem uploadBlob_pin_default_not_sticky :
    getHeader (uploadBlobReq ⟨"u", false, "", "", true⟩ 0 "st" "" false false "d").headers
      swarmPinHeader = some "false" := by
  rfl

/-- C2 amended: the pin "sticky true" rule (construction-time default
true overrides a false per-call pin flag, and never overrides a true
one) holds for `UploadSOC`, `UploadChunk` and `CreateFeedManifest`,
whose requests carry `Swarm-Pin: true` exactly when the default or the
per-call flag is set; `UploadBlob`, `UploadFileBzz` and `UploadBzz`
instead always send `Swarm-Pin` with the per-call flag's value,
ignoring the construction-time default. -/
theorem pin_stickiness_per_operation (s : Client) (pin encrypt : Bool)
    (owner id sig stamp rl fileName topic : String) (tag : Nat) (ch : Chunk)
    (data : Bytes) :
    getHeader (uploadSOCReq s owner id sig stamp rl pin data).headers swarmPinHeader =
      (if s.pin || pin then some "true" else none) ∧
    getHeader (uploadChunkReq s tag ch stamp rl pin).headers swarmPinHeader =
      (if s.pin || pin then some "true" else none) ∧
    getHeader (createFeedManifestReq s owner topic stamp pin).headers swarmPinHeader =
      (if s.pin || pin then some "true" else none) ∧
    getHeader (uploadBlobReq s tag stamp rl pin encrypt data).headers swarmPinHeader =
      some (if pin then "true" else "false") ∧
    getHeader (uploadFileBzzReq s data fileName stamp rl pin).headers swarmPinHeader =
      some (if pin then "true" else "false") ∧
    getHeader (uploadBzzReq s data stamp rl pin).headers swarmPinHeader =
      some (if pin then "true" else "false") := by
  cases hsp : s.pin <;> cases pin <;> by_cases htag : tag > 0 <;>
    simp [uploadSOCReq, uploadChunkReq, createFeedManifestReq, uploadBlobReq,
      uploadFileBzzReq, uploadBzzReq, hsp, htag,
      getHeader_setHeader_self, getHeader_setHeader_ne, getHeader_nil,
      swarmPinHeader, swarmEncryptHeader, swarmTagHeader, swarmErasureCodingHeader,
      swarmDeferredUploadHeader, SwarmPostageBatchId, contentTypeHeader]

/-- C4: against a gateway-proxy endpoint, `CreateTag` returns UID 0 with
no error and `GetTag` returns `(0, 0, 0)` with no error, and neither
dispatches any request. -/
theorem gateway_proxy_tag_shortcircuit (s : Client) (w : World) (a : Address) (t : Nat)
    (h : s.isProxy = true) :
    Client.CreateTag s w a = (.ok 0, []) ∧
    Client.GetTag s w t = (.ok (0, 0, 0), []) := by
  constructor
  · simp [Client.CreateTag, h]
  · simp [Client.GetTag, h]

/-- C4 witness: the short-circuit evaluated on a concrete proxy client
and an arbitrary concrete world. -/
theorem gateway_proxy_tag_shortcircuit_witness :
    Client.CreateTag ⟨"u", true, "", "", false⟩
      ⟨fun _ => none, fun _ => .transportErr "down"⟩ ⟨"aa"⟩ = (.ok 0, []) ∧
    Client.GetTag ⟨"u", true, "", "", false⟩
      ⟨fun _ => none, fun _ => .transportErr "down"⟩ 5 = (.ok (0, 0, 0), []) := by
  exact gateway_proxy_tag_shortcircuit ⟨"u", true, "", "", false⟩
    ⟨fun _ => none, fun _ => .transportErr "down"⟩ ⟨"aa"⟩ 5 rfl

/-- C5: `DeleteReference` returns success when the server answers 404 (as
it does on 200); any other status yields an error. -/
theorem deleteReference_notfound_is_success (s : Client) (w : World) (a : Address)
    (status : Nat) (body : BodyRead)
    (hmk : w.mkReqErr (s.url ++ pinsUrl ++ a.toHexString) = none)
    (hsend : w.send ⟨"DELETE", s.url ++ pinsUrl ++ a.toHexString, [], "", true⟩ =
      .response status body) :
    (status = 404 → (Client.DeleteReference s w a).1 = none) ∧
    (status = 200 → (Client.DeleteReference s w a).1 = none) ∧
    (status ≠ 200 → status ≠ 404 → ∃ e, (Client.DeleteReference s w a).1 = some e) := by
  refine ⟨?_, ?_, ?_⟩
  · intro h
    subst h
    simp [Client.DeleteReference, hmk, hsend]
  · intro h
    subst h
    simp [Client.DeleteReference, hmk, hsend]
  · intro h200 h404
    cases body with
    | readErr m =>
      exact ⟨m, by simp [Client.DeleteReference, hmk, hsend, h200, h404]⟩
    | bytes raw json =>
      exact ⟨"failed to unpin reference : " ++ raw,
        by simp [Client.DeleteReference, hmk, hsend, h200, h404]⟩

/-- C5 witness: a concrete unpin of an address the server reports as not
found (404) succeeds. -/
theorem deleteReference_notfound_is_success_witness :
    (Client.DeleteReference ⟨"u", false, "", "", false⟩
      ⟨fun _ => none, fun _ => .response 404 (.bytes "not found" (.error "bad json"))⟩
      ⟨"aa"⟩).1 = none := by
  exact (deleteReference_notfound_is_success ⟨"u", false, "", "", false⟩
    ⟨fun _ => none, fun _ => .response 404 (.bytes "not found" (.error "bad json"))⟩
    ⟨"aa"⟩ 404 (.bytes "not found" (.error "bad json")) rfl rfl).1 rfl

/-- C6 counterexample: after the archive has been finalized (`End`),
`WriteItem` on an item carrying a stream fails in the header write
(`BeginFile`) and returns without closing the item's byte stream — the
stream is not released even though the write did not succeed. -/
theorem writeItem_stream_left_open :
    (Stream.WriteItem (Stream.End NewStream).1 ⟨"f", 1, some ⟨"x"⟩⟩).fileClosed = false ∧
    (Stream.WriteItem (Stream.End NewStream).1 ⟨"f", 1, some ⟨"x"⟩⟩).err ≠ none := by
  decide

/-- C6 amended: `WriteItem` closes the item's byte-stream whether or not
the copy succeeds, provided the header write (`BeginFile`) succeeded and
the stream is present; when the header write fails the stream is not
closed; an item with an absent (nil) stream always yields an error — and
`WriteItem` is a pure buffer operation, issuing no request. -/
theorem writeItem_closure (ts : Stream) (item : CollectionItem) :
    ((ts.BeginFile item.path item.size).2 = none → item.file.isSome →
      (ts.WriteItem item).fileClosed = true) ∧
    (item.file = none → (ts.WriteItem item).err ≠ none) ∧
    ((ts.BeginFile item.path item.size).2 ≠ none →
      (ts.WriteItem item).fileClosed = false ∧ (ts.WriteItem item).err ≠ none) := by
  rcases hB : ts.BeginFile item.path item.size with ⟨ts1, oe⟩
  refine ⟨?_, ?_, ?_⟩
  · intro hbegin hfile
    simp at hbegin
    subst hbegin
    obtain ⟨f, hf⟩ := Option.isSome_iff_exists.mp hfile
    rcases hC : ts1.copyFrom f.contents.data with ⟨ts2, oe2⟩
    cases oe2 <;> simp [Stream.WriteItem, hB, hf, hC, Stream.EndFile]
  · intro hfile
    cases oe <;> simp [Stream.WriteItem, hB, hfile]
  · intro hbegin
    simp at hbegin
    obtain ⟨e, he⟩ := Option.ne_none_iff_exists.mp (by simpa using hbegin)
    subst he
    simp [Stream.WriteItem, hB]

/-- C6 witness: on a fresh archive, writing an item with a present
stream (where the header write succeeds) closes the stream, and an item
with an absent stream errors. -/
theorem writeItem_closure_witness :
    (Stream.WriteItem NewStream ⟨"f", 1, some ⟨"x"⟩⟩).fileClosed = true ∧
    (Stream.WriteItem NewStream ⟨"g", 1, none⟩).err ≠ none := by
  constructor
  · exact (writeItem_closure NewStream ⟨"f", 1, some ⟨"x"⟩⟩).1 (by decide) (by decide)
  · exact (writeItem_closure NewStream ⟨"g", 1, none⟩).2.1 rfl

/-- C7: against a server that stores and returns what was uploaded — it
answers the chunk upload with 201 and the chunk's reference, and the
download of the chunk's address with 200 and the chunk's data — `Put`
on the adapter succeeds and `Get` of the address returns a chunk whose
data is byte-identical to the original chunk's data. -/
theorem putGetter_roundtrip (s : Client) (w : World) (p : PutGetter) (ch : Chunk)
    (raw : Bytes) (v : JsonView) (json2 : Except String JsonView)
    (hmk1 : w.mkReqErr (s.url ++ chunkUploadDownloadUrl) = none)
    (hup : w.send (uploadChunkReq s p.tag ch p.batch p.redundancyLevel p.pin) =
      .response 201 (.bytes raw (.ok v)))
    (hmk2 : w.mkReqErr
      (s.url ++ (chunkUploadDownloadUrl ++ "/" ++ ch.address.toHexString)) = none)
    (hdown : w.send
        ⟨"GET", s.url ++ (chunkUploadDownloadUrl ++ "/" ++ ch.address.toHexString),
         [], "", true⟩ =
      .response 200 (.bytes ch.data json2)) :
    p.Put s w ch = none ∧
    p.Get s w ch.address = .ok ⟨ch.address, ch.data⟩ := by
  constructor
  · simp [PutGetter.Put, Client.UploadChunk, hmk1, hup]
  · simp [PutGetter.Get, Client.DownloadChunk, hmk2, hdown]

/-- C7 witness: a concrete chunk stored and fetched through the adapter
round-trips byte-identically. -/
theorem putGetter_roundtrip_witness :
    PutGetter.Put ⟨3, "b", false, "r"⟩ ⟨"u", false, "", "", false⟩
      ⟨fun _ => none,
       fun r => if r.method == "GET" then .response 200 (.bytes "DATA" (.error "nj"))
         else .response 201 (.bytes "R" (.ok ⟨0, "", ⟨"A"⟩, 0, 0, 0, 0⟩))⟩
      ⟨⟨"A"⟩, "DATA"⟩ = none ∧
    PutGetter.Get ⟨3, "b", false, "r"⟩ ⟨"u", false, "", "", false⟩
      ⟨fun _ => none,
       fun r => if r.method == "GET" then .response 200 (.bytes "DATA" (.error "nj"))
         else .response 201 (.bytes "R" (.ok ⟨0, "", ⟨"A"⟩, 0, 0, 0, 0⟩))⟩
      ⟨"A"⟩ = .ok ⟨⟨"A"⟩, "DATA"⟩ := by
  exact putGetter_roundtrip ⟨"u", false, "", "", false⟩
    ⟨fun _ => none,
     fun r => if r.method == "GET" then .response 200 (.bytes "DATA" (.error "nj"))
       else .response 201 (.bytes "R" (.ok ⟨0, "", ⟨"A"⟩, 0, 0, 0, 0⟩))⟩
    ⟨3, "b", false, "r"⟩ ⟨⟨"A"⟩, "DATA"⟩ "R" ⟨0, "", ⟨"A"⟩, 0, 0, 0, 0⟩ (.error "nj")
    rfl rfl rfl rfl

/-- C8 counterexample: a cancellation that strikes while the response
body is being read (the body read fails with "context canceled")
surfaces as the generic failure "error downloading data", not as the
cancellation error. -/
theorem downloadChunk_bodyread_cancellation_generic :
    (Client.DownloadChunk ⟨"u", false, "", "", false⟩
      ⟨fun _ => none, fun _ => .response 200 (.readErr "context canceled")⟩
      ⟨"aa"⟩).1 = .error "error downloading data" ∧
    (Except.error "error downloading data" : Except String Chunk) ≠
      .error "context canceled" := by
  exact ⟨rfl, by decide⟩

/-- C8 amended: a failure of the request dispatch itself (which is how a
cancellation before the response arrives surfaces) is propagated to the
`DownloadChunk` caller verbatim; a failure while reading the response
body — cancellation included — is returned as the generic
"error downloading data" failure instead. -/
theorem downloadChunk_cancellation_propagation (s : Client) (w : World) (a : Address)
    (m : String)
    (hmk : w.mkReqErr (s.url ++ (chunkUploadDownloadUrl ++ "/" ++ a.toHexString)) = none) :
    (w.send ⟨"GET", s.url ++ (chunkUploadDownloadUrl ++ "/" ++ a.toHexString),
        [], "", true⟩ = .transportErr m →
      (Client.DownloadChunk s w a).1 = .error m) ∧
    (w.send ⟨"GET", s.url ++ (chunkUploadDownloadUrl ++ "/" ++ a.toHexString),
        [], "", true⟩ = .response 200 (.readErr m) →
      (Client.DownloadChunk s w a).1 = .error "error downloading data") := by
  constructor <;> intro hsend <;> simp [Client.DownloadChunk, hmk, hsend]

/-- C8 witness: a dispatch-time cancellation error propagates verbatim. -/
theorem downloadChunk_cancellation_propagation_witness :
    (Client.DownloadChunk ⟨"u", false, "", "", false⟩
      ⟨fun _ => none, fun _ => .transportErr "context canceled"⟩ ⟨"aa"⟩).1 =
      .error "context canceled" := by
  exact (downloadChunk_cancellation_propagation ⟨"u", false, "", "", false⟩
    ⟨fun _ => none, fun _ => .transportErr "context canceled"⟩ ⟨"aa"⟩
    "context canceled" rfl).1 rfl

/-- C9: a successful `DownloadChunk` returns a chunk whose address is
exactly the argument and whose data is the raw response body — for any
body whatsoever, so no verification that the address is the hash of the
data takes place. -/
theorem downloadChunk_trusts_server (s : Client) (w : World) (a : Address)
    (raw : Bytes) (json : Except String JsonView)
    (hmk : w.mkReqErr (s.url ++ (chunkUploadDownloadUrl ++ "/" ++ a.toHexString)) = none)
    (hsend : w.send ⟨"GET", s.url ++ (chunkUploadDownloadUrl ++ "/" ++ a.toHexString),
        [], "", true⟩ = .response 200 (.bytes raw json)) :
    (Client.DownloadChunk s w a).1 = .ok ⟨a, raw⟩ := by
  simp [Client.DownloadChunk, hmk, hsend]

/-- C9 witness: a body unrelated to the requested address is accepted
and paired with that address unchanged. -/
theorem downloadChunk_trusts_server_witness :
    (Client.DownloadChunk ⟨"u", false, "", "", false⟩
      ⟨fun _ => none, fun _ => .response 200 (.bytes "unrelated bytes" (.error "nj"))⟩
      ⟨"aa"⟩).1 = .ok ⟨⟨"aa"⟩, "unrelated bytes"⟩ := by
  exact downloadChunk_trusts_server ⟨"u", false, "", "", false⟩
    ⟨fun _ => none, fun _ => .response 200 (.bytes "unrelated bytes" (.error "nj"))⟩
    ⟨"aa"⟩ "unrelated bytes" (.error "nj") rfl rfl

/-- C10: whenever `DownloadBlob` fails before any HTTP response is
received — request construction failure or transport failure — the
returned status code is 404 (`http.StatusNotFound`) and the underlying
error is passed through. -/
theorem downloadBlob_pre_response_404 (s : Client) (w : World) (a : Address)
    (e : String) :
    (w.mkReqErr (s.url ++ bytesUploadDownloadUrl ++ "/" ++ a.toHexString) = some e →
      Client.DownloadBlob s w a = (⟨none, 404, some e⟩, [])) ∧
    (w.mkReqErr (s.url ++ bytesUploadDownloadUrl ++ "/" ++ a.toHexString) = none →
      w.send ⟨"GET", s.url ++ bytesUploadDownloadUrl ++ "/" ++ a.toHexString,
        [], "", true⟩ = .transportErr e →
      Client.DownloadBlob s w a =
        (⟨none, 404, some e⟩,
         [⟨"GET", s.url ++ bytesUploadDownloadUrl ++ "/" ++ a.toHexString,
           [], "", true⟩])) := by
  constructor
  · intro h
    simp [Client.DownloadBlob, h]
  · intro h hsend
    simp [Client.DownloadBlob, h, hsend]

/-- C10 witness: a concrete transport failure surfaces with status
404. -/
theorem downloadBlob_pre_response_404_witness :
    Client.DownloadBlob ⟨"u", false, "", "", false⟩
      ⟨fun _ => none, fun _ => .transportErr "connection refused"⟩ ⟨"aa"⟩ =
      (⟨none, 404, some "connection refused"⟩,
       [⟨"GET", "u" ++ bytesUploadDownloadUrl ++ "/" ++ Address.toHexString ⟨"aa"⟩,
         [], "", true⟩]) := by
  exact (downloadBlob_pre_response_404 ⟨"u", false, "", "", false⟩
    ⟨fun _ => none, fun _ => .transportErr "connection refused"⟩ ⟨"aa"⟩
    "connection refused").2 rfl rfl

end SwarmBS
